import Mathlib

/-!
Shallow embedding of the TicTacToe reinforcement-learning environment in
`src/environments/TicTacToeEnv.py`, together with theorems settling the
behavioural claims of the specification.

Modelling choices:
* the 3x3 numpy `int8` array `self.board` is a function `Fin 3 → Fin 3 → Nat`
  (only the values 0, 1, 2 ever occur, so `int8` overflow is irrelevant);
* float rewards are the exact integers -1, 0, 1 standing for -1.0, 0.0, 1.0;
* the info dictionary carries at most the key `invalid_move`, so it is
  modelled by a single boolean: `true` when the key is present (and `True`),
  `false` when the mapping is empty;
* `np.random.choice(len(empty))` draws a uniform index below `len(empty)`;
  the draw is made explicit as a parameter `pick : Nat`, reduced modulo the
  length, so that every possible index is realised by some `pick`;
* a raised exception (the numpy `IndexError` on an out-of-range index) is
  modelled by `none`; a normal return is `some` of the returned tuple paired
  with the post-call attribute state.
-/

namespace TicTacToeEnv

/-- Board cells hold 0 (empty), 1 (`X`, the agent) or 2 (`O`, the opponent);
the board is the 3x3 numpy array `self.board`, indexed by row then column. -/
abbrev Board := Fin 3 → Fin 3 → Nat

/-- The all-zero board produced by `np.zeros((3, 3), dtype=np.int8)`. -/
def emptyBoard : Board := fun _ _ => 0

/-- Mutable attributes of the environment object: `self.board`,
`self.current_player` and `self.done`. -/
structure EnvState where
  board : Board
  current_player : Nat
  done : Bool

/-- Writing value `v` at cell `(r, c)`, as in `self.board[row, col] = v`. -/
def updateBoard (b : Board) (r c : Fin 3) (v : Nat) : Board :=
  fun i j => if i = r ∧ j = c then v else b i j

/-- Column of the anti-diagonal in row `i`: `np.diag(np.fliplr(b))` reads the
cells `(i, 2 - i)` for `i = 0, 1, 2`. -/
def antidiagCol (i : Fin 3) : Fin 3 := ⟨2 - i.val, by omega⟩

/-- Method `_is_win`: true iff some full row, some full column, the main
diagonal (`np.diag(b)`) or the anti-diagonal (`np.diag(np.fliplr(b))`) holds
three cells equal to `player`. -/
def is_win (b : Board) (player : Nat) : Bool :=
  ((List.finRange 3).any fun i => (List.finRange 3).all fun j => b i j == player) ||
  ((List.finRange 3).any fun j => (List.finRange 3).all fun i => b i j == player) ||
  (((List.finRange 3).all fun i => b i i == player) ||
   ((List.finRange 3).all fun i => b i (antidiagCol i) == player))

/-- Test `(self.board != 0).all()`: every cell is occupied. -/
def isFull (b : Board) : Bool :=
  (List.finRange 3).all fun i => (List.finRange 3).all fun j => b i j != 0

/-- All nine cells in the row-major order in which numpy scans the array. -/
def allCells : List (Fin 3 × Fin 3) :=
  (List.finRange 3).flatMap fun i => (List.finRange 3).map fun j => (i, j)

/-- Result of `np.argwhere(self.board == 0)`: the empty cells, row-major. -/
def emptyCells (b : Board) : List (Fin 3 × Fin 3) :=
  allCells.filter fun c => b c.1 c.2 == 0

/-- Cell selected by the opponent when `np.random.choice(len(empty))` samples
the index `pick % l.length`; every index below the length is realised by some
`pick`, so quantifying over `pick` covers every possible random choice. -/
def pickCell (l : List (Fin 3 × Fin 3)) (pick : Nat) : Fin 3 × Fin 3 :=
  l.getD (pick % l.length) ⟨0, 0⟩

/-- Numpy integer indexing into an axis of size 3: an index in `[0, 3)`
addresses that cell, an index in `[-3, 0)` addresses cell `i + 3` (negative
indexing), and anything else raises `IndexError`, modelled as `none`. -/
def npIndex (i : Int) : Option (Fin 3) :=
  if h : 0 ≤ i ∧ i < 3 then some ⟨i.toNat, by omega⟩
  else if h2 : -3 ≤ i ∧ i < 0 then some ⟨(i + 3).toNat, by omega⟩
  else none

/-- Decoding `row, col = divmod(action, 3)` followed by the `board[row, col]`
array access: Python divmod is floor division (`Int.fdiv`) with a remainder
(`Int.fmod`) whose sign follows the divisor, hence in `[0, 3)` here. -/
def decodeAction (a : Int) : Option (Fin 3 × Fin 3) :=
  match npIndex (Int.fdiv a 3), npIndex (Int.fmod a 3) with
  | some r, some c => some (r, c)
  | _, _ => none

/-- Return value of `step`: the observation copy, the reward, the `done` flag,
the constant `truncated = False`, and the info mapping modelled by its single
possible key (`invalid_move = true` iff the mapping holds `"invalid_move": True`,
`false` iff the mapping is empty). -/
structure StepOut where
  obs : Board
  reward : Int
  done : Bool
  truncated : Bool
  invalid_move : Bool

/-- Method `reset`: reinitialises the board to all-empty, the player to 1 and
the done flag to false, and returns a copy of the board together with an empty
info mapping. The prior state is ignored entirely. -/
def reset (_s : EnvState) : (Board × Bool) × EnvState :=
  ((emptyBoard, false), { board := emptyBoard, current_player := 1, done := false })

/-- State of a freshly constructed environment: the constructor ends by calling
`self.reset()`, which ignores whatever the attributes held before. -/
def initialState : EnvState :=
  (reset { board := emptyBoard, current_player := 0, done := true }).2

/-- Method `step`. `none` models a raised exception; `some` carries the
returned 5-tuple together with the post-call attribute state. Python evaluates
`self.done or self.board[row, col] != 0` with short-circuiting, so a terminal
episode returns the invalid-move result before any array indexing can raise;
on a non-terminal episode the `board[row, col]` access happens first and
raises (`none`) when the decoded row is out of range. -/
def step (pick : Nat) (s : EnvState) (action : Int) : Option (StepOut × EnvState) :=
  if s.done then
    some ({ obs := s.board, reward := -1, done := true, truncated := false,
            invalid_move := true }, { s with done := true })
  else
    match decodeAction action with
    | none => none
    | some (row, col) =>
      if s.board row col ≠ 0 then
        some ({ obs := s.board, reward := -1, done := true, truncated := false,
                invalid_move := true }, { s with done := true })
      else
        let b1 := updateBoard s.board row col s.current_player
        if is_win b1 s.current_player then
          some ({ obs := b1, reward := 1, done := true, truncated := false,
                  invalid_move := false },
                { board := b1, current_player := s.current_player, done := true })
        else if isFull b1 then
          some ({ obs := b1, reward := 0, done := true, truncated := false,
                  invalid_move := false },
                { board := b1, current_player := s.current_player, done := true })
        else
          let p2 := if s.current_player = 1 then 2 else 1
          if p2 = 2 then
            let empty := emptyCells b1
            if empty.isEmpty then
              some ({ obs := b1, reward := 0, done := false, truncated := false,
                      invalid_move := false },
                    { board := b1, current_player := 1, done := false })
            else
              let cell := pickCell empty pick
              let b2 := updateBoard b1 cell.1 cell.2 2
              if is_win b2 2 then
                some ({ obs := b2, reward := -1, done := true, truncated := false,
                        invalid_move := false },
                      { board := b2, current_player := 2, done := true })
              else if isFull b2 then
                some ({ obs := b2, reward := 0, done := true, truncated := false,
                        invalid_move := false },
                      { board := b2, current_player := 2, done := true })
              else
                some ({ obs := b2, reward := 0, done := false, truncated := false,
                        invalid_move := false },
                      { board := b2, current_player := 1, done := false })
          else
            some ({ obs := b1, reward := 0, done := false, truncated := false,
                    invalid_move := false },
                  { board := b1, current_player := p2, done := false })

end TicTacToeEnv

namespace TicTacToeEnv

/-- The cell the opponent answers with in the reset-then-step(0) scenario:
the sampled entry of `np.argwhere` on the board holding only the agent's mark
at (0,0). -/
def firstMoveCell (pick : Nat) : Fin 3 × Fin 3 :=
  pickCell (emptyCells (updateBoard emptyBoard 0 0 1)) pick

/-- The board observed after reset(); step(0): the agent's mark at (0,0) plus
the opponent's single reply. -/
def firstMoveBoard (pick : Nat) : Board :=
  updateBoard (updateBoard emptyBoard 0 0 1) (firstMoveCell pick).1
    (firstMoveCell pick).2 2

/-- Test fixture: agent mark at (0,0), opponent threat on the bottom row,
agent to move on a live episode. -/
def threatState : EnvState :=
  { board := ![![1, 0, 0], ![0, 0, 0], ![2, 2, 0]], current_player := 1, done := false }

/-- Test fixture: a position one move away from a full drawn board; only cell
(2,2) is empty and neither player can reach three-in-a-row. -/
def nearDrawState : EnvState :=
  { board := ![![1, 2, 1], ![1, 2, 2], ![2, 1, 0]], current_player := 1, done := false }

/-! ### Helper lemmas shared by the claim theorems -/

/-- The index list `range(3)` used by the win and draw scans. -/
theorem finRange_three : List.finRange 3 = [0, 1, 2] := rfl

/-- Universal quantification over the three rows or columns, made explicit. -/
theorem fin3_forall_iff (P : Fin 3 → Prop) : (∀ i, P i) ↔ P 0 ∧ P 1 ∧ P 2 := by
  constructor
  · intro h
    exact ⟨h 0, h 1, h 2⟩
  · rintro ⟨h0, h1, h2⟩ i
    fin_cases i <;> assumption

/-- Existential quantification over the three rows or columns, made explicit. -/
theorem fin3_exists_iff (P : Fin 3 → Prop) : (∃ i, P i) ↔ P 0 ∨ P 1 ∨ P 2 := by
  constructor
  · rintro ⟨i, h⟩
    fin_cases i
    · exact Or.inl h
    · exact Or.inr (Or.inl h)
    · exact Or.inr (Or.inr h)
  · rintro (h | h | h) <;> exact ⟨_, h⟩

/-- The row-major scan visits every cell. -/
theorem mem_allCells : ∀ q : Fin 3 × Fin 3, q ∈ allCells := by decide

/-- A cell appears in `np.argwhere(board == 0)` exactly when it is empty. -/
theorem mem_emptyCells (b : Board) (q : Fin 3 × Fin 3) :
    q ∈ emptyCells b ↔ b q.1 q.2 = 0 := by
  unfold emptyCells
  rw [List.mem_filter]
  simp [mem_allCells]

/-- A board that is not full has at least one empty cell to scan. -/
theorem emptyCells_ne_nil (b : Board) (h : isFull b = false) : emptyCells b ≠ [] := by
  intro hnil
  have hfull : isFull b = true := by
    simp only [isFull, List.all_eq_true]
    intro i _hi j _hj
    by_contra hne
    have h0 : b i j = 0 := by simpa using hne
    have hmem : (i, j) ∈ emptyCells b := (mem_emptyCells b (i, j)).mpr h0
    rw [hnil] at hmem
    exact absurd hmem (List.not_mem_nil _)
  rw [hfull] at h
  exact absurd h (by simp)

/-- On a board that is not full, `np.argwhere` returns a nonempty list. -/
theorem emptyCells_isEmpty_eq_false (b : Board) (h : isFull b = false) :
    (emptyCells b).isEmpty = false := by
  have h' := emptyCells_ne_nil b h
  cases hc : emptyCells b with
  | nil => exact absurd hc h'
  | cons e es => rfl

/-- Whatever index the opponent samples, the chosen cell is one of the listed
empty cells. -/
theorem pickCell_mem (l : List (Fin 3 × Fin 3)) (pick : Nat) (h : l ≠ []) :
    pickCell l pick ∈ l := by
  have hlt : pick % l.length < l.length := Nat.mod_lt _ (List.length_pos.mpr h)
  rw [pickCell, List.getD_eq_getElem l _ hlt]
  exact List.getElem_mem hlt

/-- Every action in `[-9, 8]` decodes, via divmod plus numpy negative
indexing, to an in-range cell. -/
theorem decodeAction_some (a : Int) (h0 : -9 ≤ a) (h8 : a ≤ 8) :
    ∃ r c, decodeAction a = some (r, c) := by
  interval_cases a <;> exact ⟨_, _, rfl⟩

/-- When the episode is live and the action decodes to an in-range cell, every
branch of `step` returns normally (no exception). -/
theorem step_isSome_of_decode (pick : Nat) (s : EnvState) (a : Int) (r c : Fin 3)
    (hd : ¬s.done = true) (hdec : decodeAction a = some (r, c)) :
    (step pick s a).isSome = true := by
  simp only [step, hd, if_false, hdec]
  repeat' split
  all_goals rfl

/-- A live episode and a decoded empty target cell never produce the
invalid-move result: some branch past the legality check answers, and all of
them leave the info mapping empty. -/
theorem step_valid_not_invalid (pick : Nat) (s : EnvState) (a : Int) (r c : Fin 3)
    (hd : s.done = false) (hdec : decodeAction a = some (r, c))
    (hcell : s.board r c = 0) :
    (step pick s a).map (fun x => x.1.invalid_move) = some false := by
  simp only [step, hd, Bool.false_eq_true, if_false, hdec]
  rw [if_neg (by simp [hcell])]
  repeat' split
  all_goals rfl

/-! ### Claim theorems -/

/-- C1: a step call whose decoded target cell is occupied, or any step call
while the episode is already terminal, returns done = true, reward = -1.0,
info with invalid_move = true, truncated = false, and leaves the board
unchanged (both in the returned observation and in the stored state). -/
theorem step_illegal_contract (pick : Nat) (s : EnvState) (a : Int)
    (h : s.done = true ∨ ∃ r c, decodeAction a = some (r, c) ∧ s.board r c ≠ 0) :
    step pick s a =
      some ({ obs := s.board, reward := -1, done := true, truncated := false,
              invalid_move := true }, { s with done := true }) := by
  by_cases hd : s.done = true
  · simp [step, hd]
  · rcases h with h | ⟨r, c, hdec, hocc⟩
    · exact absurd h hd
    · simp [step, hd, hdec, hocc]

/-- Witness for C1: stepping a terminal episode with action 4 returns the
invalid-move result and the unchanged state. -/
theorem step_illegal_contract_witness :
    step 5 { board := emptyBoard, current_player := 1, done := true } 4 =
      some ({ obs := emptyBoard, reward := -1, done := true, truncated := false,
              invalid_move := true },
            { board := emptyBoard, current_player := 1, done := true }) :=
  step_illegal_contract 5 { board := emptyBoard, current_player := 1, done := true } 4
    (Or.inl rfl)

/-- C2 (counterexample): the claim says step never raises for any integer
action, but action 9 on a fresh (non-terminal) environment decodes to row 3,
and the numpy access `board[3, col]` raises IndexError, modelled as `none`. -/
theorem step_raises_on_action_nine : step 0 initialState 9 = none := rfl

/-- C2 (amended): for every action in [-9, 8] — the range whose divmod
decoding lands inside the array, negative values via numpy negative indexing —
and also for every action whatsoever on an already-terminal episode (the
short-circuited legality check returns before indexing), step never raises an
exception; outside these cases the claimed no-throw contract fails. -/
theorem step_no_raise_in_range (pick : Nat) (s : EnvState) (a : Int)
    (h : (-9 ≤ a ∧ a ≤ 8) ∨ s.done = true) :
    (step pick s a).isSome = true := by
  by_cases hd : s.done = true
  · simp [step, hd]
  · rcases h with ⟨h0, h8⟩ | h
    · obtain ⟨r, c, hdec⟩ := decodeAction_some a h0 h8
      exact step_isSome_of_decode pick s a r c hd hdec
    · exact absurd h hd

/-- Witness for the amended C2: action 0 on a fresh environment returns
normally. -/
theorem step_no_raise_in_range_witness : (step 0 initialState 0).isSome = true :=
  step_no_raise_in_range 0 initialState 0 (Or.inl ⟨by decide, by decide⟩)

/-- C6: the win predicate holds for a player exactly when some row, some
column, the main diagonal (0,0)-(1,1)-(2,2), or the anti-diagonal
(0,2)-(1,1)-(2,0) has all three cells equal to that player. -/
theorem is_win_characterisation (b : Board) (p : Nat) :
    is_win b p = true ↔
      ((∃ i : Fin 3, ∀ j : Fin 3, b i j = p) ∨
       (∃ j : Fin 3, ∀ i : Fin 3, b i j = p) ∨
       (b 0 0 = p ∧ b 1 1 = p ∧ b 2 2 = p) ∨
       (b 0 2 = p ∧ b 1 1 = p ∧ b 2 0 = p)) := by
  have ha0 : antidiagCol 0 = 2 := rfl
  have ha1 : antidiagCol 1 = 1 := rfl
  have ha2 : antidiagCol 2 = 0 := rfl
  simp only [is_win, finRange_three, Bool.or_eq_true, List.any_cons, List.any_nil,
    List.all_cons, List.all_nil, Bool.and_eq_true, beq_iff_eq, and_true,
    Bool.false_eq_true, or_false, or_assoc, ha0, ha1, ha2,
    fin3_exists_iff, fin3_forall_iff]

/-- C3: on a live episode with the agent to move, a legal action whose decoded
cell completes three-in-a-row for player 1 makes step return done = true and
reward = +1.0, with no opponent reply: both the observation and the stored
board hold exactly the prior board plus the agent's new mark. -/
theorem step_agent_win (pick : Nat) (s : EnvState) (a : Int) (r c : Fin 3)
    (hd : s.done = false) (hp : s.current_player = 1)
    (hdec : decodeAction a = some (r, c)) (hcell : s.board r c = 0)
    (hwin : is_win (updateBoard s.board r c 1) 1 = true) :
    step pick s a =
      some ({ obs := updateBoard s.board r c 1, reward := 1, done := true,
              truncated := false, invalid_move := false },
            { board := updateBoard s.board r c 1, current_player := 1,
              done := true }) := by
  simp [step, hd, hdec, hcell, hp, hwin]

/-- Witness for C3: with marks for player 1 at (0,0) and (0,1), playing action
2 completes the top row and wins immediately. -/
theorem step_agent_win_witness :
    step 0 { board := updateBoard (updateBoard emptyBoard 0 0 1) 0 1 1,
             current_player := 1, done := false } 2 =
      some ({ obs := updateBoard (updateBoard (updateBoard emptyBoard 0 0 1) 0 1 1) 0 2 1,
              reward := 1, done := true, truncated := false, invalid_move := false },
            { board := updateBoard (updateBoard (updateBoard emptyBoard 0 0 1) 0 1 1) 0 2 1,
              current_player := 1, done := true }) :=
  step_agent_win 0
    { board := updateBoard (updateBoard emptyBoard 0 0 1) 0 1 1,
      current_player := 1, done := false } 2 0 2 rfl rfl (by decide) (by decide)
    (by decide)

/-- C4: when the agent's legal move neither wins nor fills the board and the
opponent's sampled reply completes three-in-a-row for player 2, step returns
done = true and reward = -1.0; the statement quantifies over every sampled
index `pick`, hence over every possible opponent cell choice. -/
theorem step_opponent_win (pick : Nat) (s : EnvState) (a : Int) (r c : Fin 3)
    (b1 b2 : Board) (oc : Fin 3 × Fin 3)
    (hd : s.done = false) (hp : s.current_player = 1)
    (hdec : decodeAction a = some (r, c)) (hcell : s.board r c = 0)
    (hb1 : b1 = updateBoard s.board r c 1)
    (hnw1 : is_win b1 1 = false) (hnf1 : isFull b1 = false)
    (hoc : oc = pickCell (emptyCells b1) pick)
    (hb2 : b2 = updateBoard b1 oc.1 oc.2 2)
    (hwin2 : is_win b2 2 = true) :
    step pick s a =
      some ({ obs := b2, reward := -1, done := true, truncated := false,
              invalid_move := false },
            { board := b2, current_player := 2, done := true }) := by
  subst hb1
  subst hoc
  subst hb2
  simp [step, hd, hdec, hcell, hp, hnw1, hnf1,
    emptyCells_isEmpty_eq_false _ hnf1, hwin2]

/-- Witness for C4: from the fixture with opponent marks at (2,0) and (2,1),
the agent plays action 1 and the sampled index 4 selects cell (2,2), which
completes the opponent's bottom row; step reports the loss. -/
theorem step_opponent_win_witness :
    step 4 threatState 1 =
      some ({ obs := updateBoard (updateBoard threatState.board 0 1 1) 2 2 2,
              reward := -1, done := true, truncated := false,
              invalid_move := false },
            { board := updateBoard (updateBoard threatState.board 0 1 1) 2 2 2,
              current_player := 2, done := true }) :=
  step_opponent_win 4 threatState 1 0 1
    (updateBoard threatState.board 0 1 1)
    (updateBoard (updateBoard threatState.board 0 1 1) 2 2 2) (2, 2)
    rfl rfl (by decide) (by decide) rfl (by decide) (by decide) (by decide) rfl
    (by decide)

/-- C5: a legal step call after which every cell is occupied and nobody has
three-in-a-row reports a draw — done = true with reward = 0.0 — whether the
board was filled by the agent's own move (left disjunct) or by the opponent's
reply (right disjunct). -/
theorem step_draw (pick : Nat) (s : EnvState) (a : Int) (r c : Fin 3)
    (b1 b2 : Board) (oc : Fin 3 × Fin 3)
    (hd : s.done = false) (hp : s.current_player = 1)
    (hdec : decodeAction a = some (r, c)) (hcell : s.board r c = 0)
    (hb1 : b1 = updateBoard s.board r c 1)
    (hoc : oc = pickCell (emptyCells b1) pick)
    (hb2 : b2 = updateBoard b1 oc.1 oc.2 2)
    (hnw1 : is_win b1 1 = false)
    (hdraw : isFull b1 = true ∨
      (isFull b1 = false ∧ is_win b2 2 = false ∧ isFull b2 = true)) :
    (step pick s a).map (fun x => (x.1.reward, x.1.done)) = some (0, true) := by
  subst hb1
  subst hoc
  subst hb2
  rcases hdraw with hf | ⟨hnf1, hnw2, hf2⟩
  · simp [step, hd, hdec, hcell, hp, hnw1, hf]
  · simp [step, hd, hdec, hcell, hp, hnw1, hnf1,
      emptyCells_isEmpty_eq_false _ hnf1, hnw2, hf2]

/-- Witness for C5: in the near-draw fixture the agent fills the last cell
(action 8) without making three-in-a-row, and step reports reward 0.0 with
done = true. -/
theorem step_draw_witness :
    (step 0 nearDrawState 8).map (fun x => (x.1.reward, x.1.done)) =
      some (0, true) :=
  step_draw 0 nearDrawState 8 2 2
    (updateBoard nearDrawState.board 2 2 1)
    (updateBoard (updateBoard nearDrawState.board 2 2 1)
      (pickCell (emptyCells (updateBoard nearDrawState.board 2 2 1)) 0).1
      (pickCell (emptyCells (updateBoard nearDrawState.board 2 2 1)) 0).2 2)
    (pickCell (emptyCells (updateBoard nearDrawState.board 2 2 1)) 0)
    rfl rfl (by decide) (by decide) rfl rfl rfl (by decide)
    (Or.inl (by decide))

/-- When the agent's legal move neither wins nor fills the board, and the
opponent's sampled reply neither wins nor fills it either, step places both
marks, hands the turn back to player 1 and returns reward 0 with done =
false and an empty info mapping. -/
theorem step_no_end_aux (pick : Nat) (s : EnvState) (a : Int) (r c : Fin 3)
    (hd : s.done = false) (hp : s.current_player = 1)
    (hdec : decodeAction a = some (r, c)) (hcell : s.board r c = 0)
    (hnw1 : is_win (updateBoard s.board r c 1) 1 = false)
    (hnf1 : isFull (updateBoard s.board r c 1) = false)
    (hnw2 : is_win (updateBoard (updateBoard s.board r c 1)
        (pickCell (emptyCells (updateBoard s.board r c 1)) pick).1
        (pickCell (emptyCells (updateBoard s.board r c 1)) pick).2 2) 2 = false)
    (hnf2 : isFull (updateBoard (updateBoard s.board r c 1)
        (pickCell (emptyCells (updateBoard s.board r c 1)) pick).1
        (pickCell (emptyCells (updateBoard s.board r c 1)) pick).2 2) = false) :
    step pick s a =
      some ({ obs := updateBoard (updateBoard s.board r c 1)
                (pickCell (emptyCells (updateBoard s.board r c 1)) pick).1
                (pickCell (emptyCells (updateBoard s.board r c 1)) pick).2 2,
              reward := 0, done := false, truncated := false,
              invalid_move := false },
            { board := updateBoard (updateBoard s.board r c 1)
                (pickCell (emptyCells (updateBoard s.board r c 1)) pick).1
                (pickCell (emptyCells (updateBoard s.board r c 1)) pick).2 2,
              current_player := 1, done := false }) := by
  simp [step, hd, hdec, hcell, hp, hnw1, hnf1,
    emptyCells_isEmpty_eq_false _ hnf1, hnw2, hnf2]

/-- On the board holding only the agent's opening mark at (0,0), every cell
the opponent can sample is distinct from (0,0), completes no three-in-a-row
for player 2, and leaves the board unfull. -/
theorem firstReply_facts :
    ∀ q ∈ emptyCells (updateBoard emptyBoard 0 0 1),
      q ≠ ((0 : Fin 3), (0 : Fin 3)) ∧
      is_win (updateBoard (updateBoard emptyBoard 0 0 1) q.1 q.2 2) 2 = false ∧
      isFull (updateBoard (updateBoard emptyBoard 0 0 1) q.1 q.2 2) = false := by
  decide

/-- C8: on a live episode where the agent's legal move neither wins nor fills
the board and the opponent's reply neither wins nor fills it, step returns
reward 0.0, done = false, truncated = false and an empty info mapping, the
stored board equals the prior board plus the agent's mark at the decoded cell
and exactly one opponent mark at a previously empty cell distinct from the
agent's, and the turn marker is back at player 1; in particular, for every
sampled opponent index, reset() followed by step(0) yields the agent's mark at
(0,0) plus exactly one opponent mark elsewhere with reward 0.0 and done =
false. -/
theorem step_ongoing (pick : Nat) (s : EnvState) (a : Int) (r c : Fin 3)
    (b1 b2 : Board) (oc : Fin 3 × Fin 3)
    (hd : s.done = false) (hp : s.current_player = 1)
    (hdec : decodeAction a = some (r, c)) (hcell : s.board r c = 0)
    (hb1 : b1 = updateBoard s.board r c 1)
    (hoc : oc = pickCell (emptyCells b1) pick)
    (hb2 : b2 = updateBoard b1 oc.1 oc.2 2)
    (hnw1 : is_win b1 1 = false) (hnf1 : isFull b1 = false)
    (hnw2 : is_win b2 2 = false) (hnf2 : isFull b2 = false) :
    step pick s a =
      some ({ obs := b2, reward := 0, done := false, truncated := false,
              invalid_move := false },
            { board := b2, current_player := 1, done := false }) ∧
    b1 oc.1 oc.2 = 0 ∧ oc ≠ (r, c) ∧
    step pick (reset s).2 0 =
      some ({ obs := firstMoveBoard pick, reward := 0, done := false,
              truncated := false, invalid_move := false },
            { board := firstMoveBoard pick, current_player := 1,
              done := false }) ∧
    updateBoard emptyBoard 0 0 1 (firstMoveCell pick).1 (firstMoveCell pick).2 = 0 ∧
    firstMoveCell pick ≠ (0, 0) := by
  subst hb1
  subst hoc
  subst hb2
  have hocmem := pickCell_mem _ pick (emptyCells_ne_nil _ hnf1)
  have hocempty := (mem_emptyCells _ _).mp hocmem
  have hne : pickCell (emptyCells (updateBoard s.board r c 1)) pick ≠ (r, c) := by
    intro he
    rw [he] at hocempty
    simp [updateBoard] at hocempty
  have hfmem := pickCell_mem (emptyCells (updateBoard emptyBoard 0 0 1)) pick
    (by decide)
  obtain ⟨hfne, hfw, hff⟩ := firstReply_facts _ hfmem
  refine ⟨step_no_end_aux pick s a r c hd hp hdec hcell hnw1 hnf1 hnw2 hnf2,
    hocempty, hne, ?_, ?_, hfne⟩
  · have hw1 : is_win (updateBoard emptyBoard 0 0 1) 1 = false := by decide
    have hf1 : isFull (updateBoard emptyBoard 0 0 1) = false := by decide
    exact step_no_end_aux pick (reset s).2 0 0 0 rfl rfl rfl rfl hw1 hf1 hfw hff
  · exact (mem_emptyCells _ _).mp hfmem

/-- Witness for C8: from the fixture, the agent plays action 1 and the sampled
index 3 answers at (1,2): no outcome yet, turn back to the agent; and the
reset-then-step(0) scenario with the same sampled index places the single
reply at cell (1,1). -/
theorem step_ongoing_witness :
    step 3 threatState 1 =
      some ({ obs := updateBoard (updateBoard threatState.board 0 1 1) 1 2 2,
              reward := 0, done := false, truncated := false,
              invalid_move := false },
            { board := updateBoard (updateBoard threatState.board 0 1 1) 1 2 2,
              current_player := 1, done := false }) ∧
    updateBoard threatState.board 0 1 1 (1 : Fin 3) (2 : Fin 3) = 0 ∧
    (((1 : Fin 3), (2 : Fin 3)) : Fin 3 × Fin 3) ≠ ((0 : Fin 3), (1 : Fin 3)) ∧
    step 3 (reset threatState).2 0 =
      some ({ obs := firstMoveBoard 3, reward := 0, done := false,
              truncated := false, invalid_move := false },
            { board := firstMoveBoard 3, current_player := 1, done := false }) ∧
    updateBoard emptyBoard 0 0 1 (firstMoveCell 3).1 (firstMoveCell 3).2 = 0 ∧
    firstMoveCell 3 ≠ (0, 0) :=
  step_ongoing 3 threatState 1 0 1
    (updateBoard threatState.board 0 1 1)
    (updateBoard (updateBoard threatState.board 0 1 1) 1 2 2) (1, 2)
    rfl rfl (by decide) (by decide) rfl (by decide) rfl (by decide) (by decide)
    (by decide) (by decide)

/-- C7: reset is callable in any state and leaves the environment with the
all-empty board, turn marker 1 and done = false, returning a copy of the
empty board and an empty info mapping; consequently a step with any action in
[0, 8] right after reset never takes the illegal-move branch. -/
theorem reset_contract (s : EnvState) (pick : Nat) (a : Int)
    (h0 : 0 ≤ a) (h8 : a ≤ 8) :
    reset s = ((emptyBoard, false),
      { board := emptyBoard, current_player := 1, done := false }) ∧
    (step pick (reset s).2 a).map (fun x => x.1.invalid_move) = some false := by
  obtain ⟨r, c, hdec⟩ := decodeAction_some a (by omega) h8
  exact ⟨rfl, step_valid_not_invalid pick _ a r c rfl hdec rfl⟩

/-- Witness for C7: resetting from a mid-episode state and stepping with
action 7 returns normally with no invalid-move flag. -/
theorem reset_contract_witness :
    reset threatState = ((emptyBoard, false),
      { board := emptyBoard, current_player := 1, done := false }) ∧
    (step 2 (reset threatState).2 7).map (fun x => x.1.invalid_move) =
      some false :=
  reset_contract threatState 2 7 (by decide) (by decide)

/-- C9: for every action in [-9, -1] the divmod decoding yields a negative
row in [-3, -1] and a column in [0, 2], and numpy negative indexing folds the
row onto row + 3, so step behaves exactly as it does on action + 9: the
negative out-of-range action is accepted as an ordinary move, not rejected. -/
theorem step_negative_action (pick : Nat) (s : EnvState) (a : Int)
    (h0 : -9 ≤ a) (h1 : a ≤ -1) :
    step pick s a = step pick s (a + 9) := by
  have hdec : decodeAction a = decodeAction (a + 9) := by
    interval_cases a <;> rfl
  simp only [step, hdec]

/-- Witness for C9: action -4 behaves exactly like action 5. -/
theorem step_negative_action_witness :
    step 1 threatState (-4) = step 1 threatState 5 :=
  step_negative_action 1 threatState (-4) (by decide) (by decide)

/-- C10: a freshly constructed environment is already in the post-reset state
— its constructor delegates to reset — with the all-empty board, turn marker
1 and done = false, so step can be called immediately with any action in
[0, 8] without hitting the illegal-move branch. -/
theorem fresh_env_ready (s : EnvState) (pick : Nat) (a : Int)
    (h0 : 0 ≤ a) (h8 : a ≤ 8) :
    initialState = (reset s).2 ∧ initialState.board = emptyBoard ∧
    initialState.current_player = 1 ∧ initialState.done = false ∧
    (step pick initialState a).map (fun x => x.1.invalid_move) = some false := by
  obtain ⟨r, c, hdec⟩ := decodeAction_some a (by omega) h8
  exact ⟨rfl, rfl, rfl, rfl, step_valid_not_invalid pick _ a r c rfl hdec rfl⟩

/-- Witness for C10: a fresh environment accepts action 8 at once. -/
theorem fresh_env_ready_witness :
    initialState = (reset threatState).2 ∧ initialState.board = emptyBoard ∧
    initialState.current_player = 1 ∧ initialState.done = false ∧
    (step 0 initialState 8).map (fun x => x.1.invalid_move) = some false :=
  fresh_env_ready threatState 0 8 (by decide) (by decide)

end TicTacToeEnv
